import Mathlib

/-!
Verification of the baby-sleep-tracker server against its specification.

Shallow embedding of the TypeScript sources:
  * `src/server/lib/openai.ts`   — the prediction policy `predictNextSleep`
  * `src/server/storage.ts`      — the in-memory storage layer `MemStorage`
  * the Express route handlers   — `registerRoutes` (children / sleep-records /
                                    sleep-prediction endpoints)
  * the shared zod schemas       — `insertSleepRecordSchema`, `updateSleepRecordSchema`

Times are modelled as integer milliseconds (JS `Date.getTime()`).  A wall-clock
instant is given as `dayStart + msInDay` where `dayStart` is local midnight of
the current day in absolute ms and `msInDay < 86400000` is the offset within
the day; `Date.prototype.getHours()` is then `msInDay / 3600000` and
`setHours(h, m, 0, 0)` produces `dayStart + (h*60+m)*60000`.
-/

namespace BabySleep

/-- A JavaScript value as it can appear in a field of a `JSON.parse`d object.
JSON has no `undefined` and no `NaN`, so an absent field is modelled by
`Option.none` at the use site and numbers are exact rationals. -/
inductive JsVal where
  | vnull : JsVal
  | vbool : Bool → JsVal
  | vnum  : ℚ → JsVal
  | vstr  : String → JsVal
  deriving DecidableEq, Repr

/-- JavaScript truthiness of an optional field value: `undefined`, `null`,
`false`, `0` and `""` are falsy, everything else truthy (`NaN` cannot occur in
`JSON.parse` output). -/
def jsTruthy : Option JsVal → Bool
  | none => false
  | some .vnull => false
  | some (.vbool b) => b
  | some (.vnum x) => x ≠ 0
  | some (.vstr s) => s ≠ ""

/-- The three fields the code reads off the parsed completion response
(`predictionData.nextSleepTime`, `.predictedDuration`, `.confidence`);
a field that is absent from the JSON object is `none`. -/
structure PredictionData where
  nextSleepTime : Option JsVal
  predictedDuration : Option JsVal
  confidence : Option JsVal
  deriving DecidableEq, Repr

/-- Outcome of the external structured-completion call, as the code can
observe it inside the inner `try`:
  * `callFailure` — `openai.chat.completions.create` rejects (network error,
    timeout, API error);
  * `malformedContent` — the call succeeds but `JSON.parse` of the message
    content throws (content is not valid JSON);
  * `parsedNull` — `JSON.parse` succeeds and yields `null`, so the subsequent
    property access `predictionData.nextSleepTime` throws a TypeError;
  * `parsedObj d` — `JSON.parse` succeeds with a value on which property
    access is defined; `d` records the three accessed fields. -/
inductive ExtResult where
  | callFailure : ExtResult
  | malformedContent : ExtResult
  | parsedNull : ExtResult
  | parsedObj : PredictionData → ExtResult
  deriving DecidableEq, Repr

/-- The `nextSleepTime` field of the returned prediction: either the raw value
passed through from the response (`predictionData.nextSleepTime || …`), or an
ISO string freshly rendered from a computed `Date` (absolute ms). -/
inductive TimeVal where
  | raw : JsVal → TimeVal
  | iso : ℤ → TimeVal
  deriving DecidableEq, Repr

/-- The value resolved by `predictNextSleep` (interface `SleepPrediction` in
`openai.ts`).  `predictedDuration` and `confidence` are passed through from
the response unchecked, so they are arbitrary JS values. -/
structure Prediction where
  nextSleepTime : TimeVal
  predictedDuration : JsVal
  confidence : JsVal
  deriving DecidableEq, Repr

/-- One entry of the `sleepRecords` argument of `predictNextSleep`. -/
structure SleepRecordIn where
  startTime : ℤ
  endTime : Option ℤ
  quality : Option String
  deriving DecidableEq, Repr

/-- An exception inside the body of `predictNextSleep`. -/
inductive JsError where
  | apiError : JsError
  | jsonParseError : JsError
  | typeError : JsError
  deriving DecidableEq, Repr

/-- Milliseconds in an hour / half hour / two hours / 30 minutes. -/
def msPerHour : ℤ := 3600000

/-- The success-path return (lines 106–110 of `openai.ts`): each field of the
parsed object is kept when truthy and replaced by the fixed default otherwise
(`x || default`).  `now` is absolute ms. -/
def successResult (d : PredictionData) (now : ℤ) : Prediction :=
  { nextSleepTime :=
      if jsTruthy d.nextSleepTime then .raw (d.nextSleepTime.getD .vnull)
      else .iso (now + 2 * msPerHour)
    predictedDuration :=
      if jsTruthy d.predictedDuration then d.predictedDuration.getD .vnull
      else .vnum 90
    confidence :=
      if jsTruthy d.confidence then d.confidence.getD .vnull
      else .vnum (mkRat 1 2) }

/-- The branch table of the rule-based fallback (lines 121–150): the target
instant after the in-branch retargeting but before the final clamp, together
with the predicted duration in minutes. -/
def ruleTarget (dayStart : ℤ) (msInDay : ℕ) : ℤ × ℕ :=
  let now : ℤ := dayStart + msInDay
  let hour : ℕ := msInDay / 3600000
  if hour < 9 then
    -- morning nap 9:30, or afternoon 13:00 if already past
    let t := dayStart + 9 * msPerHour + 1800000
    (if t < now then dayStart + 13 * msPerHour else t, 90)
  else if hour < 13 then
    (dayStart + 13 * msPerHour, 90)
  else if hour < 18 then
    -- evening nap 16:00, or bedtime 19:30 if already past
    let t := dayStart + 16 * msPerHour
    (if t < now then dayStart + 19 * msPerHour + 1800000 else t, 60)
  else
    -- bedtime 19:30, or now + 30 min if already past
    let t := dayStart + 19 * msPerHour + 1800000
    (if t < now then now + 1800000 else t, 600)

/-- The rule-based fallback prediction (inner `catch`, lines 111–161),
including the final clamp `if (predictedSleepTime < now) … now + 30 min`. -/
def ruleFallback (dayStart : ℤ) (msInDay : ℕ) : Prediction :=
  let now : ℤ := dayStart + msInDay
  let (target, dur) := ruleTarget dayStart msInDay
  { nextSleepTime := .iso (if target < now then now + 1800000 else target)
    predictedDuration := .vnum dur
    confidence := .vnum (mkRat 7 10) }

/-- The primary-path default prediction (outer `catch` and the dead code after
the inner `try`): now + 2 h, 90 minutes, confidence 0.5. -/
def defaultPrediction (now : ℤ) : Prediction :=
  { nextSleepTime := .iso (now + 2 * msPerHour)
    predictedDuration := .vnum 90
    confidence := .vnum (mkRat 1 2) }

/-- Body of the inner `try` (lines 72–110): the external call, `JSON.parse`
and the field extraction, any of which can throw. -/
def predictInner (ext : ExtResult) (now : ℤ) : Except JsError Prediction :=
  match ext with
  | .callFailure => .error .apiError
  | .malformedContent => .error .jsonParseError
  | .parsedNull => .error .typeError
  | .parsedObj d => .ok (successResult d now)

/-- The inner `try`/`catch` (lines 72–162): any exception from the call /
parse / extraction is replaced by the rule-based fallback. -/
def predictTryInner (ext : ExtResult) (dayStart : ℤ) (msInDay : ℕ) :
    Except JsError Prediction :=
  match predictInner ext (dayStart + msInDay) with
  | .ok p => .ok p
  | .error _ => .ok (ruleFallback dayStart msInDay)

/-- Model of `predictNextSleep` (lines 21–182).  The record formatting and the prompt
only feed the external call, so the result depends on the call outcome and the
current instant; `childAge` and `sleepRecords` are kept to mirror the
signature.  The outer `catch` returns the primary-path default. -/
def predictNextSleep (childAge : ℤ) (sleepRecords : List SleepRecordIn)
    (ext : ExtResult) (dayStart : ℤ) (msInDay : ℕ) : Prediction :=
  match predictTryInner ext dayStart msInDay with
  | .ok p => p
  | .error _ => defaultPrediction (dayStart + msInDay)

/-! ## Storage layer (`src/server/storage.ts`) -/

/-- Row of the `users` table. -/
structure User where
  id : ℤ
  username : String
  password : String
  deriving DecidableEq, Repr

/-- Row of the `children` table; `birthDate` is a timestamp in ms. -/
structure Child where
  id : ℤ
  name : String
  birthDate : ℤ
  gender : String
  deriving DecidableEq, Repr

/-- Row of the `sleep_records` table. -/
structure SleepRecord where
  id : ℤ
  childId : ℤ
  startTime : ℤ
  endTime : Option ℤ
  isActive : Bool
  quality : Option String
  deriving DecidableEq, Repr

/-- Row of the `sleep_predictions` table.  `predictedDuration` is stored as
whatever JS value the prediction carried (the route persists
`prediction.predictedDuration` unchecked). -/
structure SleepPredictionRow where
  id : ℤ
  childId : ℤ
  predictedTime : ℤ
  predictedDuration : JsVal
  createdAt : ℤ
  deriving DecidableEq, Repr

/-- Model of `InsertUser`: the id-less insert shape. -/
structure InsertUser where
  username : String
  password : String
  deriving DecidableEq, Repr

/-- Model of `InsertChild`: the id-less insert shape. -/
structure InsertChild where
  name : String
  birthDate : ℤ
  gender : String
  deriving DecidableEq, Repr

/-- Model of `InsertSleepRecord`: the shape accepted by `insertSleepRecordSchema`
before its `.refine` step. -/
structure InsertSleepRecord where
  childId : ℤ
  startTime : ℤ
  endTime : Option ℤ
  isActive : Bool
  quality : Option String
  deriving DecidableEq, Repr

/-- Model of `UpdateSleepRecord` after `.partial()` — the zod-inferred output
type: every pickable field may be absent (`none`), and `endTime` / `quality`
are themselves nullable.  Note that although the inferred type allows a
non-null `Date` in `endTime`, `updateSleepRecordSchema` is built by
`createInsertSchema(sleepRecords)` without coercion, so its `endTime` field
is an uncoerced `z.date()` — no JSON request body (which can only carry
strings, numbers, booleans, null) ever produces that case through the PATCH
route; see `updateSleepRecordParse`. -/
structure UpdateSleepRecord where
  endTime : Option (Option ℤ)
  isActive : Option Bool
  quality : Option (Option String)
  deriving DecidableEq, Repr

/-- Model of `InsertSleepPrediction`: what the route hands to
`createSleepPrediction`. -/
structure InsertSleepPrediction where
  childId : ℤ
  predictedTime : ℤ
  predictedDuration : JsVal
  deriving DecidableEq, Repr

/-- A JS `Map` as an insertion-ordered association list (keys unique). -/
abbrev JsMap (α : Type) : Type := List (ℤ × α)

/-- Model of `Map.prototype.get`. -/
def mapGet {α : Type} (l : JsMap α) (k : ℤ) : Option α :=
  (l.find? (fun p => p.1 = k)).map Prod.snd

/-- Model of `Map.prototype.set`: replace in place if the key exists, append
otherwise. -/
def mapSet {α : Type} (l : JsMap α) (k : ℤ) (v : α) : JsMap α :=
  if l.any (fun p => p.1 = k) then
    l.map (fun p => if p.1 = k then (k, v) else p)
  else l ++ [(k, v)]

/-- Model of `Map.prototype.delete`: returns whether the key was present, and the map
without it. -/
def mapDelete {α : Type} (l : JsMap α) (k : ℤ) : Bool × JsMap α :=
  (l.any (fun p => p.1 = k), l.filter (fun p => p.1 ≠ k))

/-- Model of `Map.prototype.values` as a list (insertion order). -/
def mapValues {α : Type} (l : JsMap α) : List α := l.map Prod.snd

/-- The `MemStorage` state: the four maps and the four id counters. -/
structure MemStorage where
  users : JsMap User
  children : JsMap Child
  sleepRecords : JsMap SleepRecord
  sleepPredictions : JsMap SleepPredictionRow
  userId : ℤ
  childId : ℤ
  sleepRecordId : ℤ
  sleepPredictionId : ℤ
  deriving DecidableEq, Repr

/-- The state built by the `MemStorage` constructor. -/
def MemStorage.init : MemStorage :=
  { users := [], children := [], sleepRecords := [], sleepPredictions := []
    userId := 1, childId := 1, sleepRecordId := 1, sleepPredictionId := 1 }

/-- Model of `createUser`. -/
def createUser (st : MemStorage) (u : InsertUser) : User × MemStorage :=
  let id := st.userId
  let user : User := { id := id, username := u.username, password := u.password }
  (user, { st with users := mapSet st.users id user, userId := st.userId + 1 })

/-- Model of `getChild`. -/
def getChild (st : MemStorage) (id : ℤ) : Option Child :=
  mapGet st.children id

/-- Model of `createChild`. -/
def createChild (st : MemStorage) (c : InsertChild) : Child × MemStorage :=
  let id := st.childId
  let child : Child := { id := id, name := c.name, birthDate := c.birthDate, gender := c.gender }
  (child, { st with children := mapSet st.children id child, childId := st.childId + 1 })

/-- Model of `deleteChild`: `this.children.delete(id)`; touches nothing else. -/
def deleteChild (st : MemStorage) (id : ℤ) : Bool × MemStorage :=
  let (deleted, children) := mapDelete st.children id
  (deleted, { st with children := children })

/-- Model of `getSleepRecordsByChildId`: filter by child, then sort by `startTime`
descending (`(a, b) => b.startTime - a.startTime`; JS `Array.prototype.sort`
is stable, modelled by a stable insertion sort with the non-strict
descending relation). -/
def getSleepRecordsByChildId (st : MemStorage) (childId : ℤ) : List SleepRecord :=
  ((mapValues st.sleepRecords).filter (fun r => r.childId = childId)).insertionSort
    (fun a b => b.startTime ≤ a.startTime)

/-- Model of `getActiveSleepRecordByChildId`. -/
def getActiveSleepRecordByChildId (st : MemStorage) (childId : ℤ) : Option SleepRecord :=
  (mapValues st.sleepRecords).find? (fun r => r.childId = childId && r.isActive)

/-- Model of `createSleepRecord`. -/
def createSleepRecord (st : MemStorage) (d : InsertSleepRecord) : SleepRecord × MemStorage :=
  let id := st.sleepRecordId
  let record : SleepRecord :=
    { id := id, childId := d.childId, startTime := d.startTime,
      endTime := d.endTime, isActive := d.isActive, quality := d.quality }
  (record, { st with sleepRecords := mapSet st.sleepRecords id record,
                     sleepRecordId := st.sleepRecordId + 1 })

/-- Model of `{...existingRecord, ...updateData}`: fields present in the update
override the existing ones. -/
def applyUpdate (r : SleepRecord) (u : UpdateSleepRecord) : SleepRecord :=
  { r with endTime := u.endTime.getD r.endTime,
           isActive := u.isActive.getD r.isActive,
           quality := u.quality.getD r.quality }

/-- Model of `updateSleepRecord`: merge-update an existing record, `none` if the id is
unknown. -/
def updateSleepRecord (st : MemStorage) (id : ℤ) (u : UpdateSleepRecord) :
    Option SleepRecord × MemStorage :=
  match mapGet st.sleepRecords id with
  | none => (none, st)
  | some r =>
    let r' := applyUpdate r u
    (some r', { st with sleepRecords := mapSet st.sleepRecords id r' })

/-- Model of `getLatestSleepPredictionByChildId`: filter by child, sort by `createdAt`
descending (stable), take the head. -/
def getLatestSleepPredictionByChildId (st : MemStorage) (childId : ℤ) :
    Option SleepPredictionRow :=
  (((mapValues st.sleepPredictions).filter (fun p => p.childId = childId)).insertionSort
    (fun a b => b.createdAt ≤ a.createdAt)).head?

/-- Model of `createSleepPrediction`: assigns the next id and stamps
`createdAt := new Date()` (the current instant `now`, absolute ms). -/
def createSleepPrediction (st : MemStorage) (d : InsertSleepPrediction) (now : ℤ) :
    SleepPredictionRow × MemStorage :=
  let id := st.sleepPredictionId
  let row : SleepPredictionRow :=
    { id := id, childId := d.childId, predictedTime := d.predictedTime,
      predictedDuration := d.predictedDuration, createdAt := now }
  (row, { st with sleepPredictions := mapSet st.sleepPredictions id row,
                  sleepPredictionId := st.sleepPredictionId + 1 })

/-! ## HTTP routes (`registerRoutes`) -/

/-- Response sent by a route handler, with its status code. -/
inductive RouteResponse where
  | okPrediction : SleepPredictionRow → RouteResponse  -- 200
  | okRecord : SleepRecord → RouteResponse             -- 200
  | created : SleepRecord → RouteResponse              -- 201
  | badRequest : String → RouteResponse                -- 400
  | notFound : String → RouteResponse                  -- 404
  deriving DecidableEq, Repr

/-- The `.refine` step of `insertSleepRecordSchema`: on a shape-valid body,
`if (data.endTime && data.startTime >= data.endTime) throw new Error(...)`.
A `Date` is always truthy, so the guard fires exactly when `endTime` is
non-null and `startTime >= endTime`.  The thrown plain `Error` is rendered by
`handleValidationError` as `String(err)`. -/
def insertSleepRecordParse (d : InsertSleepRecord) : Except String InsertSleepRecord :=
  match d.endTime with
  | some e => if e ≤ d.startTime then .error "Error: End time must be after start time" else .ok d
  | none => .ok d

/-- Model of `POST /api/sleep-records` on a shape-valid body: validate via the schema
refinement, then create; any parse exception is answered with a 400 and the
rendered message, leaving the store untouched. -/
def postSleepRecord (st : MemStorage) (body : InsertSleepRecord) :
    RouteResponse × MemStorage :=
  match insertSleepRecordParse body with
  | .error msg => (.badRequest msg, st)
  | .ok d =>
    let (r, st') := createSleepRecord st d
    (.created r, st')

/-- A `PATCH /api/sleep-records/:id` request body as delivered by
`express.json()`: each pickable field is absent or a JSON value.  `endTime`
is kept as a raw JSON value (absent / null / some `JsVal`) because the
schema's uncoerced `z.date()` accepts none of the JSON-transmissible values;
`isActive` and `quality` are modelled already shape-valid, since `z.boolean()`
and `z.string().nullable()` accept exactly the corresponding JSON values and
no claim concerns bodies that fail on those fields. -/
structure PatchBody where
  endTime : Option (Option JsVal)
  isActive : Option Bool
  quality : Option (Option String)
  deriving DecidableEq, Repr

/-- Model of `updateSleepRecordSchema.partial().parse` on a JSON body.
`createInsertSchema(sleepRecords)` (drizzle-zod, no coercion — unlike the
hand-written insert schema, which uses `z.coerce.date()`) maps the
`end_time` timestamp column to an uncoerced `z.date().nullable()`; a JSON
body can never contain a `Date` object, so any present non-null `endTime`
fails with a ZodError and the parsed update's `endTime` is only ever absent
or null.  The route renders the ZodError through `fromZodError`; the exact
text varies with the received JSON type and is abstracted by a fixed
representative message, on which nothing depends. -/
def updateSleepRecordParse (b : PatchBody) : Except String UpdateSleepRecord :=
  match b.endTime with
  | some (some _) =>
    .error "Validation error: Expected date, received string at endTime"
  | some none =>
    .ok { endTime := some none, isActive := b.isActive, quality := b.quality }
  | none =>
    .ok { endTime := none, isActive := b.isActive, quality := b.quality }

/-- Model of `PATCH /api/sleep-records/:id`: parse the JSON body against
`updateSleepRecordSchema.partial()` (400 with the rendered message on a
ZodError, store untouched), then merge-update the record when it exists. -/
def patchSleepRecord (st : MemStorage) (id : ℤ) (body : PatchBody) :
    RouteResponse × MemStorage :=
  match updateSleepRecordParse body with
  | .error msg => (.badRequest msg, st)
  | .ok u =>
    match updateSleepRecord st id u with
    | (none, st') => (.notFound "Sleep record not found", st')
    | (some r, st') => (.okRecord r, st')

/-- Model of `new Date(prediction.nextSleepTime).getTime()`: an ISO string rendered
from a computed instant parses back to that instant; a raw value passed
through from the external response is parsed by the oracle `parseDate`
(JS date parsing of arbitrary values, which no claim depends on). -/
def timeValMs (parseDate : JsVal → ℤ) : TimeVal → ℤ
  | .raw v => parseDate v
  | .iso t => t

/-- Milliseconds in `1000*60*60*24*30.44`, the "month" used for the age
computation. -/
def msPerMonth : ℤ := 2630016000

/-- Cache-miss path of `GET /api/children/:childId/sleep-prediction`: look up
the child (404 when absent), derive the age in months, collect the child's
records, run the prediction policy and persist the result.  The current
instant is `dayStart + msInDay`; `ext` is the behaviour of the external call
and `parseDate` the date-parsing oracle for raw response values. -/
def generateNewPrediction (st : MemStorage) (dayStart : ℤ) (msInDay : ℕ)
    (childId : ℤ) (ext : ExtResult) (parseDate : JsVal → ℤ) :
    RouteResponse × MemStorage :=
  let now : ℤ := dayStart + msInDay
  match getChild st childId with
  | none => (.notFound "Child not found", st)
  | some child =>
    let ageInMonths := Int.fdiv (now - child.birthDate) msPerMonth
    let records := getSleepRecordsByChildId st childId
    let history := records.map (fun r =>
      SleepRecordIn.mk r.startTime r.endTime r.quality)
    let prediction := predictNextSleep ageInMonths history ext dayStart msInDay
    let (saved, st') := createSleepPrediction st
      { childId := childId,
        predictedTime := timeValMs parseDate prediction.nextSleepTime,
        predictedDuration := prediction.predictedDuration } now
    (.okPrediction saved, st')

/-- The full `GET /api/children/:childId/sleep-prediction` handler: reuse a
stored prediction whose `createdAt` is less than 30 minutes old, otherwise
fall through to `generateNewPrediction`. -/
def routeGetSleepPrediction (st : MemStorage) (dayStart : ℤ) (msInDay : ℕ)
    (childId : ℤ) (ext : ExtResult) (parseDate : JsVal → ℤ) :
    RouteResponse × MemStorage :=
  let now : ℤ := dayStart + msInDay
  match getLatestSleepPredictionByChildId st childId with
  | some p =>
    if now - p.createdAt < 30 * 60 * 1000 then (.okPrediction p, st)
    else generateNewPrediction st dayStart msInDay childId ext parseDate
  | none => generateNewPrediction st dayStart msInDay childId ext parseDate

/-! ## Theorems about the prediction policy -/

/-- C6: for every wall-clock time with hour in `[9, 13)` (in particular
hour = 10), the rule-based fallback returns target 13:00 of the current day
with `predictedDuration = 90` and confidence 0.7. -/
theorem fallback_midday (dayStart : ℤ) (msInDay : ℕ) (childAge : ℤ)
    (records : List SleepRecordIn)
    (h9 : 9 * 3600000 ≤ msInDay) (h13 : msInDay < 13 * 3600000) :
    predictNextSleep childAge records .callFailure dayStart msInDay =
      { nextSleepTime := .iso (dayStart + 13 * msPerHour)
        predictedDuration := .vnum 90
        confidence := .vnum (mkRat 7 10) } := by
  have hh9 : ¬ msInDay / 3600000 < 9 := by omega
  have hh13 : msInDay / 3600000 < 13 := by omega
  have hcl : ¬ dayStart + 13 * msPerHour < dayStart + (msInDay : ℤ) := by
    simp only [msPerHour]; omega
  simp [predictNextSleep, predictTryInner, predictInner, ruleFallback, ruleTarget,
        hh9, hh13, hcl]

/-- Witness for `fallback_midday` at 10:00:00.000 local time. -/
theorem fallback_midday_witness :
    predictNextSleep 6 [] .callFailure 0 36000000 =
      { nextSleepTime := .iso 46800000
        predictedDuration := .vnum 90
        confidence := .vnum (mkRat 7 10) } := by
  have h := fallback_midday 0 36000000 6 [] (by decide) (by decide)
  simpa [msPerHour] using h

/-- C5: for every wall-clock time with hour ≥ 18 (in particular hour = 20),
the rule-based fallback returns target 19:30 of the current day if that
instant is not yet past, else now + 30 minutes, always with
`predictedDuration = 600` and confidence exactly 0.7. -/
theorem fallback_evening (dayStart : ℤ) (msInDay : ℕ) (childAge : ℤ)
    (records : List SleepRecordIn)
    (h18 : 18 * 3600000 ≤ msInDay) (hday : msInDay < 24 * 3600000) :
    predictNextSleep childAge records .callFailure dayStart msInDay =
      { nextSleepTime := .iso
          (if dayStart + 19 * msPerHour + 1800000 < dayStart + msInDay
           then dayStart + msInDay + 1800000
           else dayStart + 19 * msPerHour + 1800000)
        predictedDuration := .vnum 600
        confidence := .vnum (mkRat 7 10) } := by
  have hh9 : ¬ msInDay / 3600000 < 9 := by omega
  have hh13 : ¬ msInDay / 3600000 < 13 := by omega
  have hh18 : ¬ msInDay / 3600000 < 18 := by omega
  by_cases hb : dayStart + 19 * msPerHour + 1800000 < dayStart + (msInDay : ℤ)
  · have h2 : ¬ dayStart + (msInDay : ℤ) + 1800000 < dayStart + (msInDay : ℤ) := by omega
    simp [predictNextSleep, predictTryInner, predictInner, ruleFallback, ruleTarget,
          hh9, hh13, hh18, hb, h2]
  · simp [predictNextSleep, predictTryInner, predictInner, ruleFallback, ruleTarget,
          hh9, hh13, hh18, hb]

/-- Witness for `fallback_evening` at 20:00:00.000 local time: 19:30 is past,
so the result is now + 30 minutes. -/
theorem fallback_evening_witness :
    predictNextSleep 6 [] .callFailure 0 72000000 =
      { nextSleepTime := .iso 73800000
        predictedDuration := .vnum 600
        confidence := .vnum (mkRat 7 10) } := by
  have h := fallback_evening 0 72000000 6 [] (by decide) (by decide)
  simpa [msPerHour] using h

/-- C2 counterexample: at 16:00:00.000 local time (`dayStart = 0`,
`msInDay = 57600000`) the computed target of the fallback is 16:00 — exactly
`now`, hence not strictly in the future — yet the returned `nextSleepTime` is
`now` itself, not `now + 30` minutes: the clamp tests `predictedSleepTime <
now`, not `≤ now`. -/
theorem fallback_clamp_cex :
    (ruleTarget 0 57600000).1 = 57600000 ∧
    (predictNextSleep 6 [] .callFailure 0 57600000).nextSleepTime = .iso 57600000 ∧
    TimeVal.iso (57600000 : ℤ) ≠ .iso (57600000 + 30 * 60 * 1000) := by decide

/-- C2 (amended): the final clamp of the rule-based fallback replaces the
computed target by now + 30 minutes exactly when the target is strictly
before `now`; consequently the fallback's `nextSleepTime` is always at least
`now` (it can equal `now` exactly, so it is not always strictly in the
future). -/
theorem fallback_clamp_behaviour (dayStart : ℤ) (msInDay : ℕ) (childAge : ℤ)
    (records : List SleepRecordIn) :
    (predictNextSleep childAge records .callFailure dayStart msInDay).nextSleepTime =
      .iso (if (ruleTarget dayStart msInDay).1 < dayStart + msInDay
            then dayStart + msInDay + 1800000
            else (ruleTarget dayStart msInDay).1) ∧
    dayStart + msInDay ≤
      (if (ruleTarget dayStart msInDay).1 < dayStart + msInDay
       then dayStart + msInDay + 1800000
       else (ruleTarget dayStart msInDay).1) := by
  constructor
  · rcases hrt : ruleTarget dayStart msInDay with ⟨t, dur⟩
    simp [predictNextSleep, predictTryInner, predictInner, ruleFallback, hrt]
  · split_ifs with h
    · omega
    · omega

/-- C1 counterexample: a malformed external-service response (content that
fails `JSON.parse`, thrown inside the inner `try`) is handled by the inner
`catch` and produces the 0.7-confidence rule-based fallback, not the
0.5-confidence primary-path defaults (here at 10:00:00.000: the defaults
would be `now + 2h = 43200000` with confidence 0.5, but the result is the
rule target 13:00 with confidence 0.7). -/
theorem malformed_response_cex :
    predictNextSleep 6 [] .malformedContent 0 36000000 =
      { nextSleepTime := .iso 46800000
        predictedDuration := .vnum 90
        confidence := .vnum (mkRat 7 10) } ∧
    JsVal.vnum (mkRat 7 10) ≠ .vnum (mkRat 1 2) ∧
    TimeVal.iso (46800000 : ℤ) ≠ .iso (36000000 + 2 * 3600000) := by decide

/-- C1 (amended): an incomplete response — one that parses but misses the
fields — yields the primary-path defaults (now + 2 h, 90 minutes, confidence
0.5), whereas a malformed response — one on which `JSON.parse` throws — is
handled exactly like an outright call failure and yields the 0.7-confidence
rule-based fallback. -/
theorem malformed_vs_incomplete (childAge : ℤ) (records : List SleepRecordIn)
    (dayStart : ℤ) (msInDay : ℕ) :
    predictNextSleep childAge records (.parsedObj ⟨none, none, none⟩) dayStart msInDay =
      defaultPrediction (dayStart + msInDay) ∧
    predictNextSleep childAge records .malformedContent dayStart msInDay =
      ruleFallback dayStart msInDay ∧
    predictNextSleep childAge records .callFailure dayStart msInDay =
      ruleFallback dayStart msInDay := by
  refine ⟨?_, rfl, rfl⟩
  simp [predictNextSleep, predictTryInner, predictInner, successResult,
        defaultPrediction, jsTruthy]

/-- C3: `predictNextSleep` never rejects: whatever the behaviour of the
external call (failure, malformed response, null or object content), the
inner `try`/`catch` already resolves to a prediction, and the function
returns it. -/
theorem predict_never_rejects (childAge : ℤ) (records : List SleepRecordIn)
    (ext : ExtResult) (dayStart : ℤ) (msInDay : ℕ) :
    ∃ p : Prediction, predictTryInner ext dayStart msInDay = .ok p ∧
      predictNextSleep childAge records ext dayStart msInDay = p := by
  cases ext <;> exact ⟨_, rfl, rfl⟩

/-- C9: on the success path the `||` defaults replace any falsy field value,
not only absent ones: a present confidence 0 becomes 0.5, a present duration
0 becomes 90, an empty-string `nextSleepTime` becomes now + 2 hours; and on
every path the returned confidence is never the number 0. -/
theorem falsy_fields_defaulted (childAge : ℤ) (records : List SleepRecordIn)
    (ext : ExtResult) (dayStart : ℤ) (msInDay : ℕ) :
    (predictNextSleep childAge records ext dayStart msInDay).confidence ≠ .vnum 0 ∧
    (∀ nst pd, (predictNextSleep childAge records
        (.parsedObj ⟨nst, pd, some (.vnum 0)⟩) dayStart msInDay).confidence =
        .vnum (mkRat 1 2)) ∧
    (∀ nst cf, (predictNextSleep childAge records
        (.parsedObj ⟨nst, some (.vnum 0), cf⟩) dayStart msInDay).predictedDuration =
        .vnum 90) ∧
    (∀ pd cf, (predictNextSleep childAge records
        (.parsedObj ⟨some (.vstr ""), pd, cf⟩) dayStart msInDay).nextSleepTime =
        .iso (dayStart + msInDay + 2 * msPerHour)) := by
  refine ⟨?_, ?_, ?_, ?_⟩
  · cases ext with
    | parsedObj d =>
      rcases d with ⟨nst, pd, cf⟩
      rcases cf with _ | v
      · simp [predictNextSleep, predictTryInner, predictInner, successResult, jsTruthy]
      · rcases v with _ | b | x | s
        · simp [predictNextSleep, predictTryInner, predictInner, successResult, jsTruthy]
        · cases b <;>
            simp [predictNextSleep, predictTryInner, predictInner, successResult, jsTruthy]
        · by_cases hx : x = 0
          · subst hx
            simp [predictNextSleep, predictTryInner, predictInner, successResult, jsTruthy]
          · simp [predictNextSleep, predictTryInner, predictInner, successResult, jsTruthy, hx]
        · by_cases hs : s = ""
          · subst hs
            simp [predictNextSleep, predictTryInner, predictInner, successResult, jsTruthy]
          · simp [predictNextSleep, predictTryInner, predictInner, successResult, jsTruthy, hs]
    | callFailure =>
      simp [predictNextSleep, predictTryInner, predictInner, ruleFallback]
    | malformedContent =>
      simp [predictNextSleep, predictTryInner, predictInner, ruleFallback]
    | parsedNull =>
      simp [predictNextSleep, predictTryInner, predictInner, ruleFallback]
  · intro nst pd
    simp [predictNextSleep, predictTryInner, predictInner, successResult, jsTruthy]
  · intro nst cf
    simp [predictNextSleep, predictTryInner, predictInner, successResult, jsTruthy]
  · intro pd cf
    simp [predictNextSleep, predictTryInner, predictInner, successResult, jsTruthy,
          msPerHour]

/-! ## Helper lemmas about the JS-map model -/

theorem mapAny_of_get_isSome {α : Type} (l : JsMap α) (k : ℤ)
    (h : (mapGet l k).isSome) : l.any (fun p => p.1 = k) = true := by
  rcases Option.isSome_iff_exists.mp h with ⟨v, hv⟩
  unfold mapGet at hv
  rcases Option.map_eq_some'.mp hv with ⟨p, hp, _⟩
  have hmem := List.mem_of_find?_eq_some hp
  have hpk := List.find?_some hp
  simp only [List.any_eq_true]
  exact ⟨p, hmem, hpk⟩

theorem mapGet_eq_none_of_forall_ne {α : Type} (l : JsMap α) (k : ℤ)
    (h : ∀ p ∈ l, p.1 ≠ k) : mapGet l k = none := by
  unfold mapGet
  rw [List.find?_eq_none.mpr (fun p hp => by simpa using h p hp)]
  rfl

theorem mapSet_fresh {α : Type} (l : JsMap α) (k : ℤ) (v : α)
    (h : ∀ p ∈ l, p.1 ≠ k) : mapSet l k v = l ++ [(k, v)] := by
  have hany : l.any (fun p => p.1 = k) = false :=
    List.any_eq_false.mpr (fun p hp => by simpa using h p hp)
  simp [mapSet, hany]

theorem mapGet_append_single_ne {α : Type} (l : JsMap α) (k k' : ℤ) (v : α)
    (h : k' ≠ k) : mapGet (l ++ [(k, v)]) k' = mapGet l k' := by
  unfold mapGet
  rw [List.find?_append]
  cases hfind : l.find? (fun p => p.1 = k') with
  | some p => simp [hfind]
  | none => simp [hfind, Ne.symm h]

theorem find?_map_replace {α : Type} (l : JsMap α) (k : ℤ) (v : α)
    (h : l.any (fun p => p.1 = k) = true) :
    (l.map (fun p => if p.1 = k then (k, v) else p)).find? (fun p => p.1 = k) =
      some (k, v) := by
  induction l with
  | nil => simp at h
  | cons hd tl ih =>
    by_cases hk : hd.1 = k
    · simp [hk]
    · have h' : tl.any (fun p => p.1 = k) = true := by
        rcases List.any_eq_true.mp h with ⟨p, hp, hpk⟩
        rcases List.mem_cons.mp hp with rfl | hmem
        · exact absurd (by simpa using hpk) hk
        · exact List.any_eq_true.mpr ⟨p, hmem, hpk⟩
      simpa [hk] using ih h'

theorem mapGet_mapSet_self {α : Type} (l : JsMap α) (k : ℤ) (v : α) :
    mapGet (mapSet l k v) k = some v := by
  by_cases h : l.any (fun p => p.1 = k)
  · unfold mapSet mapGet
    rw [if_pos h, find?_map_replace l k v h]
    rfl
  · have hne : ∀ p ∈ l, p.1 ≠ k := by
      intro p hp
      have := List.any_eq_false.mp (Bool.eq_false_iff.mpr h) p hp
      simpa using this
    rw [mapSet_fresh l k v hne]
    unfold mapGet
    rw [List.find?_append,
        List.find?_eq_none.mpr (fun p hp => by simpa using hne p hp)]
    simp

/-! ## Theorems about the storage layer -/

/-- Concrete sample data used to instantiate the storage theorems. -/
def exChildRow : Child := { id := 1, name := "A", birthDate := 0, gender := "f" }

/-- A completed sleep record owned by child 1. -/
def exRecordRow : SleepRecord :=
  { id := 1, childId := 1, startTime := 1000, endTime := some 5000,
    isActive := false, quality := some "average" }

/-- A store holding child 1 and one of its sleep records. -/
def exStore : MemStorage :=
  { users := [], children := [(1, exChildRow)], sleepRecords := [(1, exRecordRow)],
    sleepPredictions := [], userId := 1, childId := 2, sleepRecordId := 2,
    sleepPredictionId := 1 }

/-- C8: deleting a stored child succeeds (returns `true`) and leaves the
sleep-record and prediction maps untouched, so the orphaned records remain
retrievable through `getSleepRecordsByChildId`. -/
theorem deleteChild_keeps_orphans (st : MemStorage) (id : ℤ)
    (h : (getChild st id).isSome) :
    (deleteChild st id).1 = true ∧
    (deleteChild st id).2.sleepRecords = st.sleepRecords ∧
    (deleteChild st id).2.sleepPredictions = st.sleepPredictions ∧
    ∀ cid, getSleepRecordsByChildId (deleteChild st id).2 cid =
      getSleepRecordsByChildId st cid := by
  refine ⟨?_, rfl, rfl, fun _ => rfl⟩
  simpa [deleteChild, mapDelete] using mapAny_of_get_isSome st.children id h

/-- Witness for `deleteChild_keeps_orphans` on `exStore`: the child is
deleted, yet its sleep record is still returned. -/
theorem deleteChild_keeps_orphans_witness :
    (deleteChild exStore 1).1 = true ∧
    getSleepRecordsByChildId (deleteChild exStore 1).2 1 =
      getSleepRecordsByChildId exStore 1 :=
  ⟨(deleteChild_keeps_orphans exStore 1 (by decide)).1,
   (deleteChild_keeps_orphans exStore 1 (by decide)).2.2.2 1⟩

/-- The id counters dominate every key stored for their entity kind — true of
the constructor state and preserved by every operation. -/
def CounterInv (st : MemStorage) : Prop :=
  (∀ p ∈ st.users, p.1 < st.userId) ∧
  (∀ p ∈ st.children, p.1 < st.childId) ∧
  (∀ p ∈ st.sleepRecords, p.1 < st.sleepRecordId) ∧
  (∀ p ∈ st.sleepPredictions, p.1 < st.sleepPredictionId)

instance (st : MemStorage) : Decidable (CounterInv st) := by
  unfold CounterInv
  infer_instance

/-- What one `create` call does to the map of its entity kind: the assigned
key `k` dominates every existing key, is absent beforehand (so nothing is
overwritten), the new entry is appended, and every other key still maps to
what it mapped to before. -/
def CreateStep {α : Type} (old new : JsMap α) (k : ℤ) (v : α) : Prop :=
  (∀ p ∈ old, p.1 < k) ∧ mapGet old k = none ∧ new = old ++ [(k, v)] ∧
    ∀ k', k' ≠ k → mapGet new k' = mapGet old k'

theorem createStep_mapSet {α : Type} (l : JsMap α) (k : ℤ) (v : α)
    (h : ∀ p ∈ l, p.1 < k) : CreateStep l (mapSet l k v) k v := by
  have hne : ∀ p ∈ l, p.1 ≠ k := fun p hp => ne_of_lt (h p hp)
  have hset := mapSet_fresh l k v hne
  refine ⟨h, mapGet_eq_none_of_forall_ne l k hne, hset, fun k' hk' => ?_⟩
  rw [hset]
  exact mapGet_append_single_ne l k k' v hk'

theorem counter_bound_after_append {α : Type} (l : JsMap α) (k : ℤ) (v : α)
    (h : ∀ p ∈ l, p.1 < k) : ∀ p ∈ l ++ [(k, v)], p.1 < k + 1 := by
  intro p hp
  rcases List.mem_append.mp hp with h1 | h2
  · exact lt_trans (h p h1) (by omega)
  · have : p = (k, v) := by simpa using h2
    subst this
    omega

/-- C10: each of the four create operations assigns as id the current counter,
which under `CounterInv` strictly dominates every id stored for that entity
kind; the new entry is appended without overwriting anything, every other key
of that map and the three other maps are untouched, and the invariant is
preserved (so it holds in every state reachable from the constructor). -/
theorem creates_assign_fresh_ids (st : MemStorage) (hInv : CounterInv st)
    (u : InsertUser) (c : InsertChild) (r : InsertSleepRecord)
    (sp : InsertSleepPrediction) (now : ℤ) :
    ((createUser st u).1.id = st.userId ∧
     CreateStep st.users (createUser st u).2.users
       (createUser st u).1.id (createUser st u).1 ∧
     (createUser st u).2.children = st.children ∧
     (createUser st u).2.sleepRecords = st.sleepRecords ∧
     (createUser st u).2.sleepPredictions = st.sleepPredictions ∧
     CounterInv (createUser st u).2) ∧
    ((createChild st c).1.id = st.childId ∧
     CreateStep st.children (createChild st c).2.children
       (createChild st c).1.id (createChild st c).1 ∧
     (createChild st c).2.users = st.users ∧
     (createChild st c).2.sleepRecords = st.sleepRecords ∧
     (createChild st c).2.sleepPredictions = st.sleepPredictions ∧
     CounterInv (createChild st c).2) ∧
    ((createSleepRecord st r).1.id = st.sleepRecordId ∧
     CreateStep st.sleepRecords (createSleepRecord st r).2.sleepRecords
       (createSleepRecord st r).1.id (createSleepRecord st r).1 ∧
     (createSleepRecord st r).2.users = st.users ∧
     (createSleepRecord st r).2.children = st.children ∧
     (createSleepRecord st r).2.sleepPredictions = st.sleepPredictions ∧
     CounterInv (createSleepRecord st r).2) ∧
    ((createSleepPrediction st sp now).1.id = st.sleepPredictionId ∧
     CreateStep st.sleepPredictions (createSleepPrediction st sp now).2.sleepPredictions
       (createSleepPrediction st sp now).1.id (createSleepPrediction st sp now).1 ∧
     (createSleepPrediction st sp now).2.users = st.users ∧
     (createSleepPrediction st sp now).2.children = st.children ∧
     (createSleepPrediction st sp now).2.sleepRecords = st.sleepRecords ∧
     CounterInv (createSleepPrediction st sp now).2) := by
  obtain ⟨h1, h2, h3, h4⟩ := hInv
  refine ⟨⟨rfl, ?_, rfl, rfl, rfl, ?_, ?_, ?_, ?_⟩,
          ⟨rfl, ?_, rfl, rfl, rfl, ?_, ?_, ?_, ?_⟩,
          ⟨rfl, ?_, rfl, rfl, rfl, ?_, ?_, ?_, ?_⟩,
          ⟨rfl, ?_, rfl, rfl, rfl, ?_, ?_, ?_, ?_⟩⟩
  · exact createStep_mapSet st.users st.userId _ h1
  · show ∀ p ∈ mapSet st.users st.userId _, p.1 < st.userId + 1
    rw [mapSet_fresh st.users st.userId _ (fun p hp => ne_of_lt (h1 p hp))]
    exact counter_bound_after_append st.users st.userId _ h1
  · exact fun p hp => h2 p hp
  · exact fun p hp => h3 p hp
  · exact fun p hp => h4 p hp
  · exact createStep_mapSet st.children st.childId _ h2
  · exact fun p hp => h1 p hp
  · show ∀ p ∈ mapSet st.children st.childId _, p.1 < st.childId + 1
    rw [mapSet_fresh st.children st.childId _ (fun p hp => ne_of_lt (h2 p hp))]
    exact counter_bound_after_append st.children st.childId _ h2
  · exact fun p hp => h3 p hp
  · exact fun p hp => h4 p hp
  · exact createStep_mapSet st.sleepRecords st.sleepRecordId _ h3
  · exact fun p hp => h1 p hp
  · exact fun p hp => h2 p hp
  · show ∀ p ∈ mapSet st.sleepRecords st.sleepRecordId _, p.1 < st.sleepRecordId + 1
    rw [mapSet_fresh st.sleepRecords st.sleepRecordId _ (fun p hp => ne_of_lt (h3 p hp))]
    exact counter_bound_after_append st.sleepRecords st.sleepRecordId _ h3
  · exact fun p hp => h4 p hp
  · exact createStep_mapSet st.sleepPredictions st.sleepPredictionId _ h4
  · exact fun p hp => h1 p hp
  · exact fun p hp => h2 p hp
  · exact fun p hp => h3 p hp
  · show ∀ p ∈ mapSet st.sleepPredictions st.sleepPredictionId _, p.1 < st.sleepPredictionId + 1
    rw [mapSet_fresh st.sleepPredictions st.sleepPredictionId _ (fun p hp => ne_of_lt (h4 p hp))]
    exact counter_bound_after_append st.sleepPredictions st.sleepPredictionId _ h4

/-- The constructor state satisfies the counter invariant. -/
theorem counterInv_init : CounterInv MemStorage.init := by
  refine ⟨?_, ?_, ?_, ?_⟩ <;> simp [MemStorage.init]

/-- Deleting a child only shrinks the children map, so the counter invariant
survives. -/
theorem counterInv_deleteChild (st : MemStorage) (id : ℤ) (h : CounterInv st) :
    CounterInv (deleteChild st id).2 := by
  obtain ⟨h1, h2, h3, h4⟩ := h
  exact ⟨fun p hp => h1 p hp,
         fun p hp => h2 p (List.mem_of_mem_filter hp),
         fun p hp => h3 p hp,
         fun p hp => h4 p hp⟩

/-- Keys present in a `mapSet` result: either the key of an old entry or the
key that was set. -/
theorem mem_mapSet_keys {α : Type} (l : JsMap α) (k : ℤ) (v : α) (p : ℤ × α)
    (hp : p ∈ mapSet l k v) : (∃ q ∈ l, p.1 = q.1) ∨ p.1 = k := by
  unfold mapSet at hp
  split at hp
  · rcases List.mem_map.mp hp with ⟨q, hq, hfq⟩
    by_cases hqk : q.1 = k
    · right
      rw [← hfq]
      simp [hqk]
    · left
      refine ⟨q, hq, ?_⟩
      rw [← hfq]
      simp [hqk]
  · rcases List.mem_append.mp hp with hmem | hone
    · exact Or.inl ⟨p, hmem, rfl⟩
    · right
      have : p = (k, v) := by simpa using hone
      rw [this]

/-- Updating a sleep record rewrites an existing key in place, so the counter
invariant survives. -/
theorem counterInv_updateSleepRecord (st : MemStorage) (id : ℤ)
    (u : UpdateSleepRecord) (h : CounterInv st) :
    CounterInv (updateSleepRecord st id u).2 := by
  obtain ⟨h1, h2, h3, h4⟩ := h
  unfold updateSleepRecord
  cases hget : mapGet st.sleepRecords id with
  | none => exact ⟨h1, h2, h3, h4⟩
  | some r =>
    refine ⟨fun p hp => h1 p hp, fun p hp => h2 p hp, ?_, fun p hp => h4 p hp⟩
    intro p hp
    rcases mem_mapSet_keys st.sleepRecords id _ p hp with ⟨q, hq, hpq⟩ | hpk
    · exact hpq ▸ h3 q hq
    · rcases Option.map_eq_some'.mp hget with ⟨q, hfind, _⟩
      have hqid : q.1 = id := by simpa using List.find?_some hfind
      rw [hpk, ← hqid]
      exact h3 q (List.mem_of_find?_eq_some hfind)

/-- Sample insert payloads for the create operations. -/
def exInsertUser : InsertUser := { username := "u", password := "p" }

def exInsertChild : InsertChild := { name := "A", birthDate := 0, gender := "f" }

def exInsertRecord : InsertSleepRecord :=
  { childId := 1, startTime := 1000, endTime := none, isActive := true, quality := none }

def exInsertPred : InsertSleepPrediction :=
  { childId := 1, predictedTime := 46800000, predictedDuration := .vnum 90 }

/-- Witness for `creates_assign_fresh_ids` on the constructor state. -/
theorem creates_assign_fresh_ids_witness :
    (createChild MemStorage.init exInsertChild).1.id = MemStorage.init.childId ∧
    mapGet MemStorage.init.children (createChild MemStorage.init exInsertChild).1.id = none ∧
    (createChild MemStorage.init exInsertChild).2.users = MemStorage.init.users := by
  have h := creates_assign_fresh_ids MemStorage.init (by decide)
    exInsertUser exInsertChild exInsertRecord exInsertPred 0
  exact ⟨h.2.1.1, h.2.1.2.1.2.1, h.2.1.2.2.1⟩

/-! ## Theorems about the HTTP routes -/

/-- Every `POST /api/sleep-records` whose body carries a non-null `endTime`
that is not strictly after `startTime` is rejected with a 400 and the
human-readable schema message, and the store is returned unchanged — no
sleep record is created. -/
theorem post_bad_end_rejected (st : MemStorage) (body : InsertSleepRecord)
    (e : ℤ) (he : body.endTime = some e) (hle : e ≤ body.startTime) :
    postSleepRecord st body =
      (.badRequest "Error: End time must be after start time", st) := by
  simp [postSleepRecord, insertSleepRecordParse, he, hle]

/-- Witness for `post_bad_end_rejected`: a body with `endTime < startTime`
bounces off the empty store. -/
theorem post_bad_end_rejected_witness :
    postSleepRecord MemStorage.init
        { childId := 1, startTime := 1000, endTime := some 500,
          isActive := false, quality := none } =
      (.badRequest "Error: End time must be after start time", MemStorage.init) :=
  post_bad_end_rejected MemStorage.init _ 500 rfl (by decide)

/-- A sleep record is either active (`endTime` null) or ends strictly after
it starts. -/
def completedOk (r : SleepRecord) : Bool :=
  match r.endTime with
  | some e => r.startTime < e
  | none => true

/-- Invariant: every stored completed sleep record satisfies
`endTime > startTime`. -/
def SleepRecordInv (st : MemStorage) : Prop :=
  ∀ p ∈ st.sleepRecords, completedOk p.2 = true

instance (st : MemStorage) : Decidable (SleepRecordInv st) := by
  unfold SleepRecordInv
  infer_instance

/-- Entries of a `mapSet` result are old entries or the entry that was set. -/
theorem mem_mapSet {α : Type} (l : JsMap α) (k : ℤ) (v : α) (p : ℤ × α)
    (hp : p ∈ mapSet l k v) : p ∈ l ∨ p = (k, v) := by
  unfold mapSet at hp
  split at hp
  · rcases List.mem_map.mp hp with ⟨q, hq, hfq⟩
    by_cases hqk : q.1 = k
    · right
      rw [← hfq, if_pos hqk]
    · left
      rw [← hfq, if_neg hqk]
      exact hq
  · rcases List.mem_append.mp hp with hmem | hone
    · exact Or.inl hmem
    · exact Or.inr (by simpa using hone)

/-- A value delivered by `mapGet` is the second component of a stored entry. -/
theorem mapGet_mem {α : Type} {l : JsMap α} {k : ℤ} {v : α}
    (h : mapGet l k = some v) : ∃ q ∈ l, q.2 = v := by
  unfold mapGet at h
  rcases Option.map_eq_some'.mp h with ⟨q, hq, hqv⟩
  exact ⟨q, List.mem_of_find?_eq_some hq, hqv⟩

/-- A body that survives `insertSleepRecordSchema`'s refinement is returned
unchanged and, when completed, ends strictly after it starts. -/
theorem insertSleepRecordParse_ok {b d : InsertSleepRecord}
    (h : insertSleepRecordParse b = .ok d) :
    d = b ∧ ∀ e, d.endTime = some e → d.startTime < e := by
  unfold insertSleepRecordParse at h
  cases hb : b.endTime with
  | none =>
    rw [hb] at h
    injection h with h
    subst h
    refine ⟨rfl, fun e he => ?_⟩
    rw [hb] at he
    cases he
  | some e0 =>
    rw [hb] at h
    by_cases hle : e0 ≤ b.startTime
    · simp [hle] at h
    · simp [hle] at h
      subst h
      refine ⟨rfl, fun e he => ?_⟩
      rw [hb] at he
      injection he with he
      omega

/-- An update that survives `updateSleepRecordSchema.partial()` on a JSON
body never carries a non-null `endTime`: the uncoerced `z.date()` rejects
every JSON-transmissible value. -/
theorem updateSleepRecordParse_ok {b : PatchBody} {u : UpdateSleepRecord}
    (h : updateSleepRecordParse b = .ok u) :
    u.endTime = none ∨ u.endTime = some none := by
  unfold updateSleepRecordParse at h
  match hb : b.endTime with
  | some (some v) => rw [hb] at h; cases h
  | some none =>
    rw [hb] at h
    injection h with h
    subst h
    exact Or.inr rfl
  | none =>
    rw [hb] at h
    injection h with h
    subst h
    exact Or.inl rfl

/-- C7: a `POST /api/sleep-records` body with a non-null `endTime` not
strictly after `startTime` is answered 400 with the schema's message and
creates nothing; and the invariant "every stored completed sleep record has
`endTime > startTime`" holds of the constructor state and is preserved by
both record-writing routes — POST through the insert schema's refinement,
and PATCH because its uncoerced `z.date()` field rejects every
JSON-transmissible non-null `endTime`, so an update can only null `endTime`
out or leave it alone. -/
theorem completed_records_end_after_start (st : MemStorage)
    (body : InsertSleepRecord) (pbody : PatchBody) (id : ℤ) (e : ℤ)
    (he : body.endTime = some e) (hle : e ≤ body.startTime)
    (hinv : SleepRecordInv st) :
    postSleepRecord st body =
      (.badRequest "Error: End time must be after start time", st) ∧
    SleepRecordInv MemStorage.init ∧
    (∀ b2 : InsertSleepRecord, SleepRecordInv (postSleepRecord st b2).2) ∧
    SleepRecordInv (patchSleepRecord st id pbody).2 := by
  refine ⟨post_bad_end_rejected st body e he hle, ?_, ?_, ?_⟩
  · intro p hp
    cases hp
  · intro b2
    unfold postSleepRecord
    cases hparse : insertSleepRecordParse b2 with
    | error msg => exact hinv
    | ok d =>
      intro p hp
      rcases mem_mapSet st.sleepRecords st.sleepRecordId _ p hp with hmem | rfl
      · exact hinv p hmem
      · obtain ⟨-, hd⟩ := insertSleepRecordParse_ok hparse
        show completedOk _ = true
        unfold completedOk
        cases hend : d.endTime with
        | none => simp [hend]
        | some e2 => simp [hend, hd e2 hend]
  · unfold patchSleepRecord
    cases hparse : updateSleepRecordParse pbody with
    | error msg => exact hinv
    | ok u =>
      unfold updateSleepRecord
      cases hget : mapGet st.sleepRecords id with
      | none => exact hinv
      | some r =>
        intro p hp
        rcases mem_mapSet st.sleepRecords id (applyUpdate r u) p hp with hmem | rfl
        · exact hinv p hmem
        · show completedOk (applyUpdate r u) = true
          rcases updateSleepRecordParse_ok hparse with hnone | hnull
          · obtain ⟨q, hqmem, hqr⟩ := mapGet_mem hget
            have hr : completedOk r = true := hqr ▸ hinv q hqmem
            simpa [completedOk, applyUpdate, hnone] using hr
          · simp [completedOk, applyUpdate, hnull]

/-- Witness for `completed_records_end_after_start`: the bad POST bounces off
the empty store, whose invariant is decided directly. -/
theorem completed_records_end_after_start_witness :
    postSleepRecord MemStorage.init
        { childId := 2, startTime := 2000, endTime := some 2000,
          isActive := false, quality := none } =
      (.badRequest "Error: End time must be after start time", MemStorage.init) :=
  (completed_records_end_after_start MemStorage.init
    { childId := 2, startTime := 2000, endTime := some 2000,
      isActive := false, quality := none }
    { endTime := some (some (.vstr "2024-01-01T00:00:00.000Z")),
      isActive := some false, quality := none }
    1 2000 rfl (by decide) (by decide)).1

/-- C4: behaviour of `GET /api/children/:childId/sleep-prediction`.
If the latest stored prediction for the child is less than 30 minutes old,
it is returned verbatim and the store is unchanged — in particular the
external call `ext` is never consulted and nothing is persisted.  Otherwise
(no stored prediction, or only a stale one), provided the child exists, the
route computes a fresh prediction through `predictNextSleep`, persists it
with `createdAt = now`, and returns the saved row. -/
theorem prediction_route_cache (st : MemStorage) (dayStart : ℤ) (msInDay : ℕ)
    (childId : ℤ) (ext : ExtResult) (parseDate : JsVal → ℤ) :
    (∀ p, getLatestSleepPredictionByChildId st childId = some p →
        dayStart + msInDay - p.createdAt < 30 * 60 * 1000 →
        routeGetSleepPrediction st dayStart msInDay childId ext parseDate =
          (.okPrediction p, st)) ∧
    ((∀ p, getLatestSleepPredictionByChildId st childId = some p →
        30 * 60 * 1000 ≤ dayStart + msInDay - p.createdAt) →
      ∀ c, getChild st childId = some c →
        ∃ saved st',
          routeGetSleepPrediction st dayStart msInDay childId ext parseDate =
            (.okPrediction saved, st') ∧
          (saved, st') = createSleepPrediction st
            { childId := childId,
              predictedTime := timeValMs parseDate
                (predictNextSleep
                    (Int.fdiv (dayStart + msInDay - c.birthDate) msPerMonth)
                    ((getSleepRecordsByChildId st childId).map
                      (fun r => SleepRecordIn.mk r.startTime r.endTime r.quality))
                    ext dayStart msInDay).nextSleepTime,
              predictedDuration :=
                (predictNextSleep
                    (Int.fdiv (dayStart + msInDay - c.birthDate) msPerMonth)
                    ((getSleepRecordsByChildId st childId).map
                      (fun r => SleepRecordIn.mk r.startTime r.endTime r.quality))
                    ext dayStart msInDay).predictedDuration }
            (dayStart + msInDay) ∧
          saved.createdAt = dayStart + msInDay ∧
          saved.childId = childId ∧
          mapGet st'.sleepPredictions saved.id = some saved) := by
  constructor
  · intro p hp hfresh
    simp only [routeGetSleepPrediction]
    rw [hp]
    exact if_pos hfresh
  · intro hstale c hc
    have hroute : routeGetSleepPrediction st dayStart msInDay childId ext parseDate =
        generateNewPrediction st dayStart msInDay childId ext parseDate := by
      simp only [routeGetSleepPrediction]
      cases hlat : getLatestSleepPredictionByChildId st childId with
      | none => rfl
      | some p =>
        exact if_neg (not_lt.mpr (hstale p hlat))
    rw [hroute]
    unfold generateNewPrediction
    rw [hc]
    refine ⟨_, _, rfl, rfl, rfl, rfl, ?_⟩
    simpa [createSleepPrediction] using
      mapGet_mapSet_self st.sleepPredictions st.sleepPredictionId _

/-- A prediction created 1 second before 10:00:00.000 (fresh). -/
def exPredFresh : SleepPredictionRow :=
  { id := 1, childId := 1, predictedTime := 46800000, predictedDuration := .vnum 90,
    createdAt := 35999000 }

/-- A prediction created exactly 30 minutes before 10:00:00.000 (stale). -/
def exPredStale : SleepPredictionRow :=
  { id := 1, childId := 1, predictedTime := 46800000, predictedDuration := .vnum 90,
    createdAt := 34200000 }

/-- Store with child 1 and the fresh prediction. -/
def exStoreFresh : MemStorage :=
  { users := [], children := [(1, exChildRow)], sleepRecords := [],
    sleepPredictions := [(1, exPredFresh)], userId := 1, childId := 2,
    sleepRecordId := 1, sleepPredictionId := 2 }

/-- Store with child 1 and the stale prediction. -/
def exStoreStale : MemStorage :=
  { users := [], children := [(1, exChildRow)], sleepRecords := [],
    sleepPredictions := [(1, exPredStale)], userId := 1, childId := 2,
    sleepRecordId := 1, sleepPredictionId := 2 }

/-- The row the route persists for `exStoreStale` at 10:00:00.000 with a
failing external call: the rule-based fallback targets 13:00. -/
def exSavedRow : SleepPredictionRow :=
  { id := 2, childId := 1, predictedTime := 46800000, predictedDuration := .vnum 90,
    createdAt := 36000000 }

/-- Witness for `prediction_route_cache`: at 10:00:00.000, the fresh store
answers from the cache without touching the store, while the stale store
persists and returns a newly generated prediction. -/
theorem prediction_route_cache_witness :
    routeGetSleepPrediction exStoreFresh 0 36000000 1 .callFailure (fun _ => 0) =
      (.okPrediction exPredFresh, exStoreFresh) ∧
    routeGetSleepPrediction exStoreStale 0 36000000 1 .callFailure (fun _ => 0) =
      (.okPrediction exSavedRow,
       { exStoreStale with
           sleepPredictions := [(1, exPredStale), (2, exSavedRow)],
           sleepPredictionId := 3 }) := by
  constructor
  · exact (prediction_route_cache exStoreFresh 0 36000000 1 .callFailure (fun _ => 0)).1
      exPredFresh (by decide) (by decide)
  · obtain ⟨saved, st', h1, h2, -, -, -⟩ :=
      (prediction_route_cache exStoreStale 0 36000000 1 .callFailure (fun _ => 0)).2
        (by
          intro p hp
          have heq : getLatestSleepPredictionByChildId exStoreStale 1 =
              some exPredStale := by decide
          rw [heq] at hp
          injection hp with h
          subst h
          decide)
        exChildRow (by decide)
    have h3 : (saved, st') =
        (exSavedRow,
         { exStoreStale with
             sleepPredictions := [(1, exPredStale), (2, exSavedRow)],
             sleepPredictionId := 3 }) := by
      rw [h2]
      decide
    injection h3 with hs hst
    rw [h1, hs, hst]

end BabySleep
